import Mathlib

/-!
Verification development for the `jus_back` ingestion backend.

The definitions below are a shallow embedding of the Python sources:
  * `src/backend/utils/statistics.py`   (ProcessingStats)
  * `src/backend/utils/db_manager.py`   (DatabaseManager: pool, save_processed_content)
  * `src/backend/utils/queue_manager.py` (consumer handlers)
  * `src/backend/mcp_server.py`         (DocumentMCPServer.process_document / process_audio)
  * `src/backend/main.py`               (get_file_type, process_zip)

Stateful code is embedded as explicit state passing; Python exceptions are
reified as `Except`/outcome values; external collaborators (whisper, PyMuPDF)
and system facts (clock, file contents) are parameters of the definitions.
-/

namespace JusBack

/-! ## ProcessingStats — src/backend/utils/statistics.py -/

/-- One element of `ProcessingStats.errors`: the dict
`{"file": ..., "error": ..., "timestamp": ...}` built in `add_error`
(statistics.py lines 20-24).  `datetime.now().isoformat()` is an input. -/
structure ErrorEntry where
  file : String
  error : String
  timestamp : String
deriving Repr, DecidableEq

/-- The `ProcessingStats` dataclass (statistics.py lines 10-16). -/
structure ProcessingStats where
  total_files : Nat
  processed_files : Nat
  failed_files : Nat
  saved_to_db : Nat
  errors : List ErrorEntry
deriving Repr, DecidableEq

/-- The dataclass defaults: all counters 0, empty error list. -/
def ProcessingStats.mkDefault : ProcessingStats :=
  { total_files := 0, processed_files := 0, failed_files := 0, saved_to_db := 0, errors := [] }

/-- `ProcessingStats.add_error` (statistics.py lines 18-27): appends one
error dict to `errors` and increments `failed_files`.  The wall-clock
timestamp is passed in as `ts`. -/
def ProcessingStats.add_error (s : ProcessingStats) (file_name : String) (error : String)
    (ts : String) : ProcessingStats :=
  { s with
    errors := s.errors ++ [{ file := file_name, error := error, timestamp := ts }]
    failed_files := s.failed_files + 1 }

/-- The dictionary returned by `ProcessingStats.to_dict` (statistics.py lines 29-37). -/
structure StatsDict where
  total_files : Nat
  processed_files : Nat
  failed_files : Nat
  saved_to_db : Nat
  success_rate : String
  errors : List ErrorEntry
deriving Repr, DecidableEq

/-- Models Python's `f"{(p/t)*100:.2f}%"` for naturals `p`, `t` with `t > 0`:
the percentage `100*p/t` rounded to two decimals (round half to even, which
is what `%.2f` applies to the real value; binary-float representation error
of the intermediate division is not modelled). -/
def formatPercent2 (p t : Nat) : String :=
  let num := p * 10000
  let q := num / t
  let r := num % t
  let m := if 2 * r < t then q else if t < 2 * r then q + 1 else if q % 2 = 0 then q else q + 1
  toString (m / 100) ++ "." ++ (if m % 100 < 10 then "0" else "") ++ toString (m % 100) ++ "%"

/-- `ProcessingStats.to_dict` (statistics.py lines 29-37): copies the four
counters and the error list, and computes `success_rate` as
`f"{(processed/total)*100:.2f}%"` when `total_files > 0` and the literal
`"0%"` otherwise. -/
def ProcessingStats.to_dict (s : ProcessingStats) : StatsDict :=
  { total_files := s.total_files
    processed_files := s.processed_files
    failed_files := s.failed_files
    saved_to_db := s.saved_to_db
    success_rate :=
      if s.total_files > 0 then formatPercent2 s.processed_files s.total_files else "0%"
    errors := s.errors }

/-! ## Content store — src/backend/utils/db_manager.py -/

/-- A row of the `processed_content` table (db_manager.py lines 68-78);
`id` is a surrogate autoincrement key and `created_at` a default timestamp,
both irrelevant to the claims and omitted; the row list is kept in
insertion order, so a row's position plays the role of `id`. -/
structure Row where
  file_name : String
  file_type : String
  content_type : String
  content : String
  metadata : String
deriving Repr, DecidableEq

/-- The `metadata` dict of a `content_data` payload as built by the callers
in mcp_server.py: always has `file_name` and `file_type` keys, plus further
media-specific keys (`processed`, `size`, ...) collected in `rest`. -/
structure Metadata where
  file_name : String
  file_type : String
  rest : List (String × String)
deriving Repr, DecidableEq

/-- Models `json.dumps(content_data['metadata'])` (db_manager.py line 249):
a deterministic JSON rendering of the metadata dict. -/
def Metadata.serialize (m : Metadata) : String :=
  "\x7b\"file_name\": \"" ++ m.file_name ++ "\", \"file_type\": \"" ++ m.file_type ++ "\""
    ++ String.join (m.rest.map (fun kv => ", \"" ++ kv.1 ++ "\": " ++ kv.2)) ++ "\x7d"

/-- A `content_data` dict as passed to `save_processed_content`
(mcp_server.py lines 62-70, 102-106, 139-143, 177-181): a `type` string,
the extracted `content`, and the metadata dict. -/
structure ContentData where
  type : String
  content : String
  metadata : Metadata
deriving Repr, DecidableEq

/-- Whether a row matches a `(file_name, file_type)` key — the WHERE clause
of the SELECT in `save_processed_content` (db_manager.py lines 226-232). -/
def rowMatches (fn ft : String) (r : Row) : Bool :=
  r.file_name == fn && r.file_type == ft

/-- Number of rows of the store holding a given `(file_name, file_type)` key. -/
def countKey (db : List Row) (fn ft : String) : Nat :=
  db.countP (rowMatches fn ft)

/-- `DatabaseManager.save_processed_content` (db_manager.py lines 217-263):
inside one leased connection, SELECTs a row matching
`(metadata.file_name, metadata.file_type)`; if one exists, returns without
inserting; otherwise INSERTs one new row with
`(file_name, file_type, content_type, content, metadata)` taken from the
payload, the metadata serialized with `json.dumps`. -/
def DatabaseManager.save_processed_content (db : List Row) (cd : ContentData) : List Row :=
  if db.any (rowMatches cd.metadata.file_name cd.metadata.file_type) then
    db
  else
    db ++ [{ file_name := cd.metadata.file_name
             file_type := cd.metadata.file_type
             content_type := cd.type
             content := cd.content
             metadata := cd.metadata.serialize }]

/-- The row that `save_processed_content` builds from a payload (the INSERT
at db_manager.py lines 240-250). -/
def ContentData.toRow (cd : ContentData) : Row :=
  { file_name := cd.metadata.file_name
    file_type := cd.metadata.file_type
    content_type := cd.type
    content := cd.content
    metadata := cd.metadata.serialize }

/-! ## Connection pool — src/backend/utils/db_manager.py -/

/-- The pool-relevant state of a `DatabaseManager` (db_manager.py lines
19-26): the `_connection_pool` list (same order as the Python list, so
`list.pop()` takes the LAST element and `append` adds at the end), the
configured `pool_size` (default 5), a counter minting identifiers for
freshly opened connections, and the list of connections that have been
closed.  Connections are identified by `Nat` ids. -/
structure DatabaseManager where
  pool : List Nat
  pool_size : Nat
  nextConnId : Nat
  closedConns : List Nat
deriving Repr, DecidableEq

/-- The acquisition half of `DatabaseManager.get_connection` (db_manager.py
lines 108-113), run under `_pool_lock`: if the pool is non-empty, pop its
last element (`self._connection_pool.pop()`); otherwise open a fresh
connection (`aiosqlite.connect`), modelled by minting a new id. -/
def DatabaseManager.get_connection_acquire (s : DatabaseManager) : Nat × DatabaseManager :=
  match s.pool.getLast? with
  | some c => (c, { s with pool := s.pool.dropLast })
  | none => (s.nextConnId, { s with nextConnId := s.nextConnId + 1 })

/-- `DatabaseManager.release_connection` (db_manager.py lines 120-128), run
under `_pool_lock`: append the connection to the pool if the pool currently
holds fewer than `pool_size` connections, else close it. -/
def DatabaseManager.release_connection (s : DatabaseManager) (c : Nat) : DatabaseManager :=
  if s.pool.length < s.pool_size then
    { s with pool := s.pool ++ [c] }
  else
    { s with closedConns := s.closedConns ++ [c] }

/-- Result of the body of a `with` block: normal completion carrying a
value, or an exception/cancellation carrying a message.  Python's
`asyncio.CancelledError` propagates through `try/finally` exactly like any
other exception, so it is covered by the `exn` constructor. -/
inductive Outcome (α : Type) where
  | ok (a : α)
  | exn (msg : String)
deriving Repr, DecidableEq

/-- `DatabaseManager.get_connection` (db_manager.py lines 102-118) as a
whole scoped acquisition: acquire (pop-or-open), run the caller's body with
the leased connection, and — this is the `try/finally` — release the
connection on every exit, whether the body completed normally or raised.
The body is a pure function of the leased connection; its outcome value is
returned unchanged (a `finally` block neither swallows the exception nor
alters the result). -/
def DatabaseManager.get_connection (s : DatabaseManager) {α : Type}
    (body : Nat → Outcome α) : Outcome α × DatabaseManager :=
  let acq := s.get_connection_acquire
  let r := body acq.1
  (r, acq.2.release_connection acq.1)

/-! ## Per-message pipeline state — queue_manager.py + mcp_server.py -/

/-- The state a consumer handler can touch: the `processed_content` store,
the filesystem (existing regular files as a path ↦ content association
list), and the two terminal directories managed by `PathManager`
(path_manager.py lines 7-33), recorded as the file names moved into them. -/
structure PipeState where
  db : List Row
  files : List (String × String)
  processedDir : List String
  unprocessedDir : List String
deriving Repr, DecidableEq

/-- Removes a path from the filesystem map — the source side of an
`os.rename(file_path, dest)`. -/
def removeFile (fs : List (String × String)) (p : String) : List (String × String) :=
  fs.filter (fun kv => kv.1 ≠ p)

/-- `os.path.exists(p)` over the modelled filesystem. -/
def PipeState.fileExists (st : PipeState) (p : String) : Bool :=
  (st.files.lookup p).isSome

/-- The shared `except` block of the `process_*` methods of
`DocumentMCPServer` (mcp_server.py lines 150-155 and analogues): if the
source file still exists it is renamed into `unprocessed/`; the exception
is then re-raised by the caller. -/
def moveOnError (st : PipeState) (fp fn : String) : PipeState :=
  if st.fileExists fp then
    { st with files := removeFile st.files fp, unprocessedDir := st.unprocessedDir ++ [fn] }
  else
    st

/-- Python's `not text or not text.strip()` (mcp_server.py lines 58, 127):
true exactly when the string is empty or consists solely of whitespace. -/
def isBlank (s : String) : Bool :=
  s.toList.all (fun c => c.isWhitespace)

/-- Python's `str.lower()` restricted to what the classified extensions
need: character-wise ASCII lowering. -/
def lowerString (s : String) : String :=
  String.mk (s.toList.map Char.toLower)

/-- Python's `Path(name).suffix`: the extension of the final path
component, i.e. `name[i:]` for `i` the rightmost dot position when
`0 < i < len(name)-1`, else the empty string.  The final component is the
run of characters after the last `/`. -/
def pySuffix (filename : String) : String :=
  let nm := filename.toList.foldl (fun acc c => if c = '/' then [] else acc ++ [c]) []
  match ((List.range nm.length).filter (fun i => nm.getD i ' ' = '.')).getLast? with
  | some i => if 0 < i ∧ i < nm.length - 1 then String.mk (nm.drop i) else ""
  | none => ""

/-- `DocumentMCPServer.process_document` (mcp_server.py lines 121-156).
`docText` is the external `DocumentProcessor.process` collaborator as a
pure function of the file's bytes; reading a path that does not exist
raises, reified as an `error` outcome.  On success: builds metadata with
`file_type = extension-without-dot`, saves a `content_data` of type
`"document"` through `save_processed_content`, and renames the file into
`processed/`.  On any exception: the file, if still present, is renamed
into `unprocessed/` and the exception is re-raised. -/
def DocumentMCPServer.process_document (docText : String → Except String String)
    (st : PipeState) (fp fn : String) : Except String Unit × PipeState :=
  let ext := lowerString (pySuffix fn)
  match (match st.files.lookup fp with
         | none => Except.error "FileNotFoundError"
         | some bytes => docText bytes) with
  | Except.error e => (Except.error e, moveOnError st fp fn)
  | Except.ok text =>
    if isBlank text then
      (Except.error ("Texto extraído vazio do documento: " ++ fn), moveOnError st fp fn)
    else
      let size := ((st.files.lookup fp).getD "").length
      let md : Metadata :=
        { file_name := fn, file_type := ext.drop 1
          rest := [("processed", "true"), ("size", toString size)] }
      let db' := DatabaseManager.save_processed_content st.db
        { type := "document", content := text, metadata := md }
      (Except.ok (),
        { st with db := db', files := removeFile st.files fp
                  processedDir := st.processedDir ++ [fn] })

/-- `DocumentMCPServer.process_audio` (mcp_server.py lines 52-84).
`whisperText` is the external whisper transcription as a pure function of
the file's bytes; transcribing a missing path raises.  An empty or
whitespace-only transcription raises `ValueError("Texto transcrito
vazio")`.  On success: saves a `content_data` of type `"audio"` with
metadata `file_type = "audio"` and renames the file into `processed/`; the
shared except block moves a still-present file into `unprocessed/`. -/
def DocumentMCPServer.process_audio (whisperText : String → String)
    (st : PipeState) (fp fn : String) : Except String Unit × PipeState :=
  match st.files.lookup fp with
  | none => (Except.error "FileNotFoundError", moveOnError st fp fn)
  | some bytes =>
    let text := whisperText bytes
    if isBlank text then
      (Except.error "Texto transcrito vazio", moveOnError st fp fn)
    else
      let md : Metadata :=
        { file_name := fn, file_type := "audio", rest := [("processed", "true")] }
      let db' := DatabaseManager.save_processed_content st.db
        { type := "audio", content := text, metadata := md }
      (Except.ok (),
        { st with db := db', files := removeFile st.files fp
                  processedDir := st.processedDir ++ [fn] })

/-! ## Consumer handlers — src/backend/utils/queue_manager.py -/

/-- What a handler finally does with the broker message.  `reject` is
always `reject(requeue=False)` in this code base, which routes the message
to the `{queue}_failed` dead-letter queue; `ack` removes it for good. -/
inductive MsgAction where
  | ack
  | reject
deriving Repr, DecidableEq

/-- Whether the action routes the message to the dead-letter queue. -/
def MsgAction.deadLettered : MsgAction → Bool
  | .ack => false
  | .reject => true

/-- A decoded message body: `invalid` models a `json.JSONDecodeError` from
`json.loads(message.body.decode())`; `fields` models a decoded JSON object
as a key ↦ value association list (all task-message values are strings). -/
inductive Body where
  | invalid
  | fields (data : List (String × String))
deriving Repr, DecidableEq

/-- The `UPLOAD_FOLDER` constant of queue_manager.py line 10
(`backend/uploads`); the absolute prefix is irrelevant to the claims. -/
def UPLOAD_FOLDER : String := "backend/uploads"

/-- `os.path.join(a, b)` for a relative second component. -/
def pathJoin (a b : String) : String := a ++ "/" ++ b

/-- The `process_message` closure installed by `QueueManager.process_queue`
(queue_manager.py lines 79-104): undecodable JSON → ack; JSON without the
required `'filename'` key → ack; referenced file absent from
`UPLOAD_FOLDER` → ack; otherwise run the callback, ack on success, and on
any exception reject with `requeue=False` (→ dead-letter queue).  The
callback is the per-media task function and may mutate the pipeline state
or raise. -/
def process_queue.process_message
    (callback : String → List (String × String) → PipeState → Except String Unit × PipeState)
    (st : PipeState) (body : Body) : MsgAction × PipeState :=
  match body with
  | Body.invalid => (MsgAction.ack, st)
  | Body.fields data =>
    match data.lookup "filename" with
    | none => (MsgAction.ack, st)
    | some fn =>
      let file_path := pathJoin UPLOAD_FOLDER fn
      if st.fileExists file_path then
        match callback file_path data st with
        | (Except.ok _, st') => (MsgAction.ack, st')
        | (Except.error _, st') => (MsgAction.reject, st')
      else (MsgAction.ack, st)

/-- `QueueManager.process_document_message` (queue_manager.py lines
251-268), the handler registered for `document_processing` in
`startup_event` (main.py line 220).  The body runs inside
`async with message.process()`, which acks on normal exit and rejects with
`requeue=False` on an exception; the outer `except` issues a second
explicit `reject(requeue=False)` — the broker-visible effect either way is
one rejection.  An undecodable body, a missing `mcp_server`
(`ValueError`), a missing `file_path`/`file_name` key (`KeyError`), and a
raising `process_document` all therefore end in a reject. -/
def QueueManager.process_document_message (docText : String → Except String String)
    (hasMcp : Bool) (st : PipeState) (body : Body) : MsgAction × PipeState :=
  match body with
  | Body.invalid => (MsgAction.reject, st)
  | Body.fields data =>
    if hasMcp then
      match data.lookup "file_path", data.lookup "file_name" with
      | some fp, some fn =>
        match DocumentMCPServer.process_document docText st fp fn with
        | (Except.ok _, st') => (MsgAction.ack, st')
        | (Except.error _, st') => (MsgAction.reject, st')
      | _, _ => (MsgAction.reject, st)
    else (MsgAction.reject, st)

/-- `QueueManager.process_audio_message` (queue_manager.py lines 231-249),
the handler registered for `audio_processing` in `startup_event` (main.py
line 219).  Same `message.process()` semantics as the document handler.
The log f-string on line 236 indexes `body['file_name']` before anything
else, so a missing `file_name` raises `KeyError` first; then the
`mcp_server` check; then `body['file_path']` at the call. -/
def QueueManager.process_audio_message (whisperText : String → String)
    (hasMcp : Bool) (st : PipeState) (body : Body) : MsgAction × PipeState :=
  match body with
  | Body.invalid => (MsgAction.reject, st)
  | Body.fields data =>
    match data.lookup "file_name" with
    | none => (MsgAction.reject, st)
    | some fn =>
      if hasMcp then
        match data.lookup "file_path" with
        | none => (MsgAction.reject, st)
        | some fp =>
          match DocumentMCPServer.process_audio whisperText st fp fn with
          | (Except.ok _, st') => (MsgAction.ack, st')
          | (Except.error _, st') => (MsgAction.reject, st')
      else (MsgAction.reject, st)

/-! ## Ingestion orchestrator — src/backend/main.py -/

/-- `get_file_type` (main.py lines 294-304): classifies a file name by its
lower-cased extension into one of the four media types, or `none`
(Python `None`) when unsupported. -/
def get_file_type (filename : String) : Option String :=
  let ext := lowerString (pySuffix filename)
  if ext ∈ [".mp3", ".wav", ".ogg", ".opus", ".m4a"] then some "audio"
  else if ext ∈ [".pdf", ".docx", ".xlsx", ".xls", ".txt", ".vcf"] then some "document"
  else if ext ∈ [".jpg", ".jpeg", ".png"] then some "image"
  else if ext ∈ [".mp4", ".avi", ".mov"] then some "video"
  else none

/-- One name of `zip_ref.namelist()` together with the
`arquivo_path.is_file()` fact after extraction (false for directory
entries). -/
structure ZipEntry where
  name : String
  isFile : Bool
deriving Repr, DecidableEq

/-- Environment behaviour of the body of the per-entry `try` in
`process_zip` (main.py lines 316-337): either no exception occurs, or an
exception with message `msg` is raised at some point (by `zip_ref.extract`,
`enqueue_task`, `shutil.move`, ...), with `present` recording whether the
extracted file exists at `UPLOAD_DIR/name` when the `except` block
(lines 338-344) runs. -/
inductive EntryOutcome where
  | ok
  | exn (msg : String) (present : Bool)
deriving Repr, DecidableEq

/-- The state `process_zip` acts on: the batch accumulator, the names moved
into `unprocessed/`, and the `(queue_type, task file_name)` pairs handed to
`enqueue_task`. -/
structure ZipState where
  stats : ProcessingStats
  unprocessedDir : List String
  queued : List (String × String)
deriving Repr, DecidableEq

/-- The body of the per-entry loop of `process_zip` (main.py lines
315-344), one entry at a time.  No exception: a classifiable regular file
is enqueued on `{file_type}_processing` and `processed_files` is
incremented; otherwise the file (when a regular file) is moved to
`unprocessed/`, `failed_files` is incremented, and
`add_error(name, "Tipo de arquivo não suportado")` is recorded — note
`add_error` increments `failed_files` again.  Exception: the `except`
block moves the extracted file, if present, to `unprocessed/`, increments
`failed_files`, and records `add_error(name, str(e))`; the loop then
continues.  `datetime.now()` inside `add_error` is modelled as `""`. -/
def processZipEntry (st : ZipState) (e : ZipEntry) (out : EntryOutcome) : ZipState :=
  match out with
  | EntryOutcome.ok =>
    match get_file_type e.name, e.isFile with
    | some ft, true =>
      { st with
        queued := st.queued ++ [(ft, e.name)]
        stats := { st.stats with processed_files := st.stats.processed_files + 1 } }
    | _, _ =>
      let unp := if e.isFile then st.unprocessedDir ++ [e.name] else st.unprocessedDir
      { st with
        unprocessedDir := unp
        stats := ProcessingStats.add_error
          { st.stats with failed_files := st.stats.failed_files + 1 }
          e.name "Tipo de arquivo não suportado" "" }
  | EntryOutcome.exn msg present =>
    let unp := if present then st.unprocessedDir ++ [e.name] else st.unprocessedDir
    { st with
      unprocessedDir := unp
      stats := ProcessingStats.add_error
        { st.stats with failed_files := st.stats.failed_files + 1 }
        e.name msg "" }

/-- The per-entry loop of `process_zip` as a fold over the entries, from an
arbitrary start state. -/
def processZipFold (entries : List (ZipEntry × EntryOutcome)) (st : ZipState) : ZipState :=
  entries.foldl (fun s p => processZipEntry s p.1 p.2) st

/-- `process_zip` (main.py lines 306-352) up to the statistics it
accumulates: `total_files` is set to the number of entries of
`zip_ref.namelist()` that `get_file_type` classifies (main.py lines
311-313), and every entry is then handled by the per-entry loop.  Each
entry is paired with the environment behaviour of its iteration. -/
def process_zip (entries : List (ZipEntry × EntryOutcome)) : ZipState :=
  let valid := entries.filter (fun p => (get_file_type p.1.name).isSome)
  processZipFold entries
    { stats := { ProcessingStats.mkDefault with total_files := valid.length }
      unprocessedDir := []
      queued := [] }

/-! ## Sample inputs used by witnesses and counterexamples -/

/-- An empty pipeline state. -/
def pipeSt0 : PipeState :=
  { db := [], files := [], processedDir := [], unprocessedDir := [] }

/-- A pipeline state holding one staged file `/stage/a.pdf`. -/
def pdfState0 : PipeState :=
  { db := [], files := [("/stage/a.pdf", "PDFTEXT")], processedDir := [], unprocessedDir := [] }

/-- A well-formed audio task body whose file path is not on disk in `pipeSt0`. -/
def audioBody0 : Body :=
  Body.fields [("file_name", "x.mp3"), ("file_path", "/stage/x.mp3")]

/-- Sample audio `content_data` used to exercise `save_processed_content`. -/
def audioContent0 : ContentData :=
  { type := "audio"
    content := "ola"
    metadata := { file_name := "x.mp3", file_type := "audio", rest := [("processed", "true")] } }

/-! ## Helper lemmas -/

/-- The key count is zero exactly when the existence check of
`save_processed_content` comes back empty. -/
lemma countKey_eq_zero (db : List Row) (fn ft : String) :
    countKey db fn ft = 0 ↔ db.any (rowMatches fn ft) = false := by
  simp [countKey, List.countP_eq_zero, List.any_eq_false]

/-- After `removeFile`, the removed path no longer resolves. -/
lemma lookup_removeFile (fs : List (String × String)) (p : String) :
    (removeFile fs p).lookup p = none := by
  induction fs with
  | nil => rfl
  | cons kv tl ih =>
    by_cases h : kv.1 = p
    · simpa [removeFile, h] using ih
    · have hb : (p == kv.1) = false := by
        simp only [beq_eq_false_iff_ne]
        exact fun e => h e.symm
      simpa [removeFile, h, List.lookup, hb] using ih

/-- The freshly inserted row matches its own key. -/
lemma rowMatches_toRow (cd : ContentData) :
    rowMatches cd.metadata.file_name cd.metadata.file_type cd.toRow = true := by
  simp [rowMatches, ContentData.toRow]

/-- When the existence check comes back empty, `save_processed_content`
appends exactly the row built from the payload. -/
lemma save_processed_content_of_not_exists (db : List Row) (cd : ContentData)
    (h : db.any (rowMatches cd.metadata.file_name cd.metadata.file_type) = false) :
    DatabaseManager.save_processed_content db cd = db ++ [cd.toRow] := by
  simp [DatabaseManager.save_processed_content, ContentData.toRow, h]

/-! ## Claim theorems -/

/-- C1: `save_processed_content` is idempotent on `(file_name, file_type)`:
when a row with the payload's key already exists the call is a no-op, and
hence two sequential calls with the same metadata, starting from a store
without the key, leave exactly one row holding that key. -/
theorem save_processed_content_idempotent (db : List Row) (cd : ContentData) :
    (db.any (rowMatches cd.metadata.file_name cd.metadata.file_type) = true →
      DatabaseManager.save_processed_content db cd = db)
    ∧ (countKey db cd.metadata.file_name cd.metadata.file_type = 0 →
      countKey (DatabaseManager.save_processed_content
          (DatabaseManager.save_processed_content db cd) cd)
        cd.metadata.file_name cd.metadata.file_type = 1) := by
  constructor
  · intro h
    simp [DatabaseManager.save_processed_content, h]
  · intro h0
    have hany : db.any (rowMatches cd.metadata.file_name cd.metadata.file_type) = false :=
      (countKey_eq_zero db _ _).mp h0
    have h1 : DatabaseManager.save_processed_content db cd = db ++ [cd.toRow] :=
      save_processed_content_of_not_exists db cd hany
    have h2 : (db ++ [cd.toRow]).any
        (rowMatches cd.metadata.file_name cd.metadata.file_type) = true := by
      simp [List.any_append, rowMatches_toRow]
    have h3 : DatabaseManager.save_processed_content (db ++ [cd.toRow]) cd
        = db ++ [cd.toRow] := by
      simp [DatabaseManager.save_processed_content, h2]
    rw [h1, h3]
    have h0' : db.countP (rowMatches cd.metadata.file_name cd.metadata.file_type) = 0 := h0
    simp [countKey, List.countP_append, List.countP_cons, rowMatches_toRow, h0']

/-- Witness for C1 at a concrete store and payload: the empty store has no
row keyed `("x.mp3", "audio")`, and saving `audioContent0` twice leaves
exactly one row with that key. -/
theorem save_processed_content_idempotent_witness :
    countKey [] "x.mp3" "audio" = 0
    ∧ countKey (DatabaseManager.save_processed_content
        (DatabaseManager.save_processed_content [] audioContent0) audioContent0)
        "x.mp3" "audio" = 1 :=
  ⟨rfl, (save_processed_content_idempotent [] audioContent0).2 rfl⟩

/-- C5: the connection pool never exceeds `pool_size`: `release_connection`
appends only when the pool holds fewer than `pool_size` connections and
closes the connection otherwise, and neither the acquisition step of
`get_connection` nor a whole acquire/body/release round grows the pool
beyond the bound. -/
theorem pool_never_exceeds_pool_size (s : DatabaseManager) (c : Nat) :
    s.pool.length ≤ s.pool_size →
      ((s.release_connection c).pool.length ≤ s.pool_size
      ∧ (s.pool.length < s.pool_size → (s.release_connection c).pool = s.pool ++ [c])
      ∧ (¬ s.pool.length < s.pool_size →
          (s.release_connection c).pool = s.pool
          ∧ (s.release_connection c).closedConns = s.closedConns ++ [c])
      ∧ (s.get_connection_acquire).2.pool.length ≤ s.pool_size
      ∧ ∀ (body : Nat → Outcome Unit),
          (s.get_connection body).2.pool.length ≤ s.pool_size) := by
  intro hle
  have hrel : ∀ (t : DatabaseManager) (d : Nat), t.pool.length ≤ t.pool_size →
      (t.release_connection d).pool.length ≤ t.pool_size := by
    intro t d ht
    by_cases h : t.pool.length < t.pool_size
    · simp only [DatabaseManager.release_connection, if_pos h]
      simp only [List.length_append, List.length_cons, List.length_nil]
      omega
    · simp only [DatabaseManager.release_connection, if_neg h]
      exact ht
  have hacq : (s.get_connection_acquire).2.pool.length ≤ s.pool.length ∧
      (s.get_connection_acquire).2.pool_size = s.pool_size := by
    cases hp : s.pool.getLast? with
    | none => simp [DatabaseManager.get_connection_acquire, hp]
    | some d =>
      refine ⟨?_, by simp [DatabaseManager.get_connection_acquire, hp]⟩
      simp only [DatabaseManager.get_connection_acquire, hp, List.length_dropLast]
      omega
  refine ⟨hrel s c hle, ?_, ?_, ?_, ?_⟩
  · intro h
    simp [DatabaseManager.release_connection, h]
  · intro h
    constructor <;> simp [DatabaseManager.release_connection, h]
  · exact le_trans hacq.1 hle
  · intro body
    have := hrel (s.get_connection_acquire).2 (s.get_connection_acquire).1
      (by rw [hacq.2]; exact le_trans hacq.1 hle)
    simpa [DatabaseManager.get_connection, hacq.2] using this

/-- Witness for C5 at a concrete manager: a full pool of size 2; releasing
a further connection keeps the length at the bound and closes the
connection instead of appending it. -/
theorem pool_never_exceeds_pool_size_witness :
    ([10, 11] : List Nat).length ≤ 2
    ∧ (DatabaseManager.release_connection ⟨[10, 11], 2, 12, []⟩ 13).pool.length ≤ 2
    ∧ (¬ ([10, 11] : List Nat).length < 2)
    ∧ (DatabaseManager.release_connection ⟨[10, 11], 2, 12, []⟩ 13).pool = [10, 11]
    ∧ (DatabaseManager.release_connection ⟨[10, 11], 2, 12, []⟩ 13).closedConns = [13] :=
  ⟨by decide,
   (pool_never_exceeds_pool_size ⟨[10, 11], 2, 12, []⟩ 13 (by decide)).1,
   by decide,
   ((pool_never_exceeds_pool_size ⟨[10, 11], 2, 12, []⟩ 13 (by decide)).2.2.1 (by decide)).1,
   ((pool_never_exceeds_pool_size ⟨[10, 11], 2, 12, []⟩ 13 (by decide)).2.2.1 (by decide)).2⟩

/-- C6: `get_connection` is scoped acquisition: the leased connection is the
one popped from the pool (its last element) when the pool is non-empty, or
a freshly opened one when it is empty; the body's outcome — normal or
exceptional, cancellation included — is passed through unchanged; and on
every exit the leased connection ends up back in the pool or closed, never
leaked. -/
theorem get_connection_scoped {α : Type} (s : DatabaseManager) (body : Nat → Outcome α) :
    (s.get_connection body).1 = body (s.get_connection_acquire).1
    ∧ ((s.get_connection_acquire).1 ∈ (s.get_connection body).2.pool
        ∨ (s.get_connection_acquire).1 ∈ (s.get_connection body).2.closedConns)
    ∧ ((s.pool = [] ∧ (s.get_connection_acquire).1 = s.nextConnId)
        ∨ s.pool.getLast? = some (s.get_connection_acquire).1) := by
  refine ⟨rfl, ?_, ?_⟩
  · have : ∀ (t : DatabaseManager) (d : Nat),
        d ∈ (t.release_connection d).pool ∨ d ∈ (t.release_connection d).closedConns := by
      intro t d
      by_cases h : t.pool.length < t.pool_size
      · left
        simp [DatabaseManager.release_connection, h]
      · right
        simp [DatabaseManager.release_connection, h]
    simpa [DatabaseManager.get_connection] using
      this (s.get_connection_acquire).2 (s.get_connection_acquire).1
  · cases hp : s.pool.getLast? with
    | none =>
      left
      exact ⟨List.getLast?_eq_none_iff.mp hp, by simp [DatabaseManager.get_connection_acquire, hp]⟩
    | some d =>
      right
      simp [DatabaseManager.get_connection_acquire, hp]

/-- C9: `to_dict` never divides by zero: the `success_rate` field is the
literal `"0%"` whenever `total_files = 0` and the two-decimal percentage
`processed_files / total_files * 100` otherwise, and the four counters and
the error list are passed through unchanged. -/
theorem to_dict_no_division_by_zero (s : ProcessingStats) :
    s.to_dict.success_rate
      = (if 0 < s.total_files then formatPercent2 s.processed_files s.total_files else "0%")
    ∧ s.to_dict.total_files = s.total_files
    ∧ s.to_dict.processed_files = s.processed_files
    ∧ s.to_dict.failed_files = s.failed_files
    ∧ s.to_dict.saved_to_db = s.saved_to_db
    ∧ s.to_dict.errors = s.errors := by
  refine ⟨?_, rfl, rfl, rfl, rfl, rfl⟩
  simp [ProcessingStats.to_dict]

/-- C10: `add_error` appends exactly the one entry built from its arguments
to `errors`, increments `failed_files` by exactly one, and leaves
`total_files`, `processed_files` and `saved_to_db` unchanged. -/
theorem add_error_effects (s : ProcessingStats) (fn err ts : String) :
    (s.add_error fn err ts).errors = s.errors ++ [{ file := fn, error := err, timestamp := ts }]
    ∧ (s.add_error fn err ts).failed_files = s.failed_files + 1
    ∧ (s.add_error fn err ts).total_files = s.total_files
    ∧ (s.add_error fn err ts).processed_files = s.processed_files
    ∧ (s.add_error fn err ts).saved_to_db = s.saved_to_db :=
  ⟨rfl, rfl, rfl, rfl, rfl⟩

/-- Classifiable and unclassifiable entries partition an entry list. -/
lemma length_filter_isSome_add (l : List ZipEntry) :
    (l.filter (fun e => (get_file_type e.name).isSome)).length
      + (l.filter (fun e => (get_file_type e.name).isNone)).length = l.length := by
  induction l with
  | nil => rfl
  | cons e tl ih =>
    cases h : get_file_type e.name <;> simp [List.filter_cons, h] <;> omega

/-- The `valid_files` count of `process_zip` over all-ok pairs equals the
count of classifiable entries. -/
lemma valid_length_map (entries : List ZipEntry) :
    ((entries.map (fun e => (e, EntryOutcome.ok))).filter
        (fun p => (get_file_type p.1.name).isSome)).length
      = (entries.filter (fun e => (get_file_type e.name).isSome)).length := by
  induction entries with
  | nil => rfl
  | cons e tl ih =>
    cases h : get_file_type e.name <;> simp [List.filter_cons, h, ih]

/-- Effect of the per-entry loop on a list of regular-file entries none of
whose iterations raises: `total_files` is untouched, every unclassifiable
entry contributes its name to `unprocessed/` and one error entry, and
`failed_files` grows by two per unclassifiable entry (the explicit `+= 1`
plus the one inside `add_error`). -/
lemma processZipFold_ok_all : ∀ (entries : List ZipEntry) (st : ZipState),
    (∀ e ∈ entries, e.isFile = true) →
    (processZipFold (entries.map (fun e => (e, EntryOutcome.ok))) st).stats.total_files
        = st.stats.total_files
    ∧ (processZipFold (entries.map (fun e => (e, EntryOutcome.ok))) st).unprocessedDir
        = st.unprocessedDir
          ++ (entries.filter (fun e => (get_file_type e.name).isNone)).map ZipEntry.name
    ∧ (processZipFold (entries.map (fun e => (e, EntryOutcome.ok))) st).stats.errors
        = st.stats.errors
          ++ (entries.filter (fun e => (get_file_type e.name).isNone)).map
              (fun e =>
                { file := e.name, error := "Tipo de arquivo não suportado", timestamp := "" })
    ∧ (processZipFold (entries.map (fun e => (e, EntryOutcome.ok))) st).stats.failed_files
        = st.stats.failed_files
          + 2 * (entries.filter (fun e => (get_file_type e.name).isNone)).length := by
  intro entries
  induction entries with
  | nil =>
    intro st _
    simp [processZipFold]
  | cons e tl ih =>
    intro st hfile
    have he : e.isFile = true := hfile e (List.mem_cons_self e tl)
    have htl : ∀ x ∈ tl, x.isFile = true := fun x hx => hfile x (List.mem_cons_of_mem e hx)
    have hfold : processZipFold ((e :: tl).map (fun x => (x, EntryOutcome.ok))) st
        = processZipFold (tl.map (fun x => (x, EntryOutcome.ok)))
            (processZipEntry st e EntryOutcome.ok) := by
      simp [processZipFold]
    rw [hfold]
    cases hft : get_file_type e.name with
    | some ft =>
      have hstep : processZipEntry st e EntryOutcome.ok
          = { st with
              queued := st.queued ++ [(ft, e.name)]
              stats := { st.stats with processed_files := st.stats.processed_files + 1 } } := by
        simp [processZipEntry, hft, he]
      have hfe : ((e :: tl).filter (fun x => (get_file_type x.name).isNone))
          = tl.filter (fun x => (get_file_type x.name).isNone) := by
        simp [List.filter_cons, hft]
      rw [hstep, hfe]
      simpa using ih _ htl
    | none =>
      have hstep : processZipEntry st e EntryOutcome.ok
          = { st with
              unprocessedDir := st.unprocessedDir ++ [e.name]
              stats := ProcessingStats.add_error
                { st.stats with failed_files := st.stats.failed_files + 1 }
                e.name "Tipo de arquivo não suportado" "" } := by
        simp [processZipEntry, hft, he]
      have hfe : ((e :: tl).filter (fun x => (get_file_type x.name).isNone))
          = e :: tl.filter (fun x => (get_file_type x.name).isNone) := by
        simp [List.filter_cons, hft]
      rw [hstep, hfe]
      obtain ⟨t1, t2, t3, t4⟩ := ih
        { st with
          unprocessedDir := st.unprocessedDir ++ [e.name]
          stats := ProcessingStats.add_error
            { st.stats with failed_files := st.stats.failed_files + 1 }
            e.name "Tipo de arquivo não suportado" "" } htl
      refine ⟨?_, ?_, ?_, ?_⟩
      · rw [t1]
        simp [ProcessingStats.add_error]
      · rw [t2]
        simp [ProcessingStats.add_error]
      · rw [t3]
        simp [ProcessingStats.add_error]
      · rw [t4]
        simp only [ProcessingStats.add_error, List.length_cons]
        omega

/-- C7: an exception raised while `process_zip` handles one archive entry
is caught at the per-entry boundary: the extracted file, when present, is
moved to `unprocessed/`, one error entry (and a `failed_files` increment of
two — the explicit one plus `add_error`'s) is recorded in the batch
accumulator, nothing is enqueued for the entry, and the fold continues with
the remaining entries — the archive is never aborted by one entry's
failure. -/
theorem process_zip_entry_isolation (st0 st : ZipState) (e : ZipEntry) (msg : String)
    (present : Bool) (pre suf : List (ZipEntry × EntryOutcome)) :
    (processZipEntry st e (EntryOutcome.exn msg present)).stats.errors
        = st.stats.errors ++ [{ file := e.name, error := msg, timestamp := "" }]
    ∧ (processZipEntry st e (EntryOutcome.exn msg present)).unprocessedDir
        = (if present then st.unprocessedDir ++ [e.name] else st.unprocessedDir)
    ∧ (processZipEntry st e (EntryOutcome.exn msg present)).stats.failed_files
        = st.stats.failed_files + 2
    ∧ (processZipEntry st e (EntryOutcome.exn msg present)).queued = st.queued
    ∧ processZipFold (pre ++ (e, EntryOutcome.exn msg present) :: suf) st0
        = processZipFold suf
            (processZipEntry (processZipFold pre st0) e (EntryOutcome.exn msg present)) := by
  refine ⟨?_, ?_, ?_, rfl, ?_⟩
  · simp [processZipEntry, ProcessingStats.add_error]
  · cases present <;> simp [processZipEntry]
  · simp [processZipEntry, ProcessingStats.add_error]
  · simp [processZipFold, List.foldl_append]

/-- C8: for an archive whose entries are all regular files and whose
handling raises no exception, with `K` the number of entries with an
unsupported extension: `total_files` counts only the classifiable entries
(`N - K`), each of the `K` unsupported entries is relocated to
`unprocessed/` with exactly one error entry recorded for it, and
`failed_files` is at least `K`. -/
theorem process_zip_unsupported_entries (entries : List ZipEntry)
    (hfile : ∀ e ∈ entries, e.isFile = true) :
    (process_zip (entries.map (fun e => (e, EntryOutcome.ok)))).stats.total_files
        = entries.length - (entries.filter (fun e => (get_file_type e.name).isNone)).length
    ∧ (process_zip (entries.map (fun e => (e, EntryOutcome.ok)))).unprocessedDir
        = (entries.filter (fun e => (get_file_type e.name).isNone)).map ZipEntry.name
    ∧ (process_zip (entries.map (fun e => (e, EntryOutcome.ok)))).stats.errors
        = (entries.filter (fun e => (get_file_type e.name).isNone)).map
            (fun e =>
              { file := e.name, error := "Tipo de arquivo não suportado", timestamp := "" })
    ∧ (entries.filter (fun e => (get_file_type e.name).isNone)).length
        ≤ (process_zip (entries.map (fun e => (e, EntryOutcome.ok)))).stats.failed_files := by
  obtain ⟨t1, t2, t3, t4⟩ := processZipFold_ok_all entries
    { stats := { ProcessingStats.mkDefault with
        total_files := (((entries.map (fun e => (e, EntryOutcome.ok))).filter
          (fun p => (get_file_type p.1.name).isSome)).length) }
      unprocessedDir := []
      queued := [] } hfile
  have hz : process_zip (entries.map (fun e => (e, EntryOutcome.ok)))
      = processZipFold (entries.map (fun e => (e, EntryOutcome.ok)))
        { stats := { ProcessingStats.mkDefault with
            total_files := (((entries.map (fun e => (e, EntryOutcome.ok))).filter
              (fun p => (get_file_type p.1.name).isSome)).length) }
          unprocessedDir := []
          queued := [] } := rfl
  rw [hz]
  refine ⟨?_, ?_, ?_, ?_⟩
  · rw [t1]
    simp only [ProcessingStats.mkDefault]
    rw [valid_length_map]
    have := length_filter_isSome_add entries
    omega
  · simpa using t2
  · rw [t3]
    simp [ProcessingStats.mkDefault]
  · rw [t4]
    simp only [ProcessingStats.mkDefault]
    omega

/-- Witness for C8 on a concrete archive holding one supported `.pdf` and
one unsupported `.xyz` regular file: `total_files` is 1, `.xyz` is
relocated to `unprocessed/`, and one error entry references it. -/
theorem process_zip_unsupported_entries_witness :
    (∀ e ∈ [ZipEntry.mk "a.pdf" true, ZipEntry.mk "b.xyz" true], e.isFile = true)
    ∧ (process_zip ([ZipEntry.mk "a.pdf" true, ZipEntry.mk "b.xyz" true].map
          (fun e => (e, EntryOutcome.ok)))).unprocessedDir
        = ([ZipEntry.mk "a.pdf" true, ZipEntry.mk "b.xyz" true].filter
            (fun e => (get_file_type e.name).isNone)).map ZipEntry.name :=
  ⟨by decide,
   (process_zip_unsupported_entries [ZipEntry.mk "a.pdf" true, ZipEntry.mk "b.xyz" true]
      (by decide)).2.1⟩

/-- C2 counterexample: an undecodable message handled by
`process_document_message` — the handler registered for
`document_processing` at startup — is rejected (routed to the dead-letter
queue), not acknowledged, refuting the claim that malformed messages are
always acked and never dead-lettered. -/
theorem process_document_message_rejects_malformed :
    QueueManager.process_document_message (fun c => Except.ok c) true pipeSt0 Body.invalid
      = (MsgAction.reject, pipeSt0)
    ∧ (QueueManager.process_document_message (fun c => Except.ok c) true pipeSt0
        Body.invalid).1.deadLettered = true :=
  ⟨rfl, rfl⟩

/-- C2 (amended): only the handler installed by `process_queue` acks and
discards a message whose body is undecodable or lacks the required field;
the `process_document_message` handler registered at startup instead
rejects such a message without requeue, routing it to the dead-letter
queue.  Neither touches the pipeline state. -/
theorem malformed_message_handling
    (callback : String → List (String × String) → PipeState → Except String Unit × PipeState)
    (docText : String → Except String String) (hasMcp : Bool)
    (st : PipeState) (data : List (String × String)) :
    (process_queue.process_message callback st Body.invalid = (MsgAction.ack, st))
    ∧ (data.lookup "filename" = none →
        process_queue.process_message callback st (Body.fields data) = (MsgAction.ack, st))
    ∧ (QueueManager.process_document_message docText hasMcp st Body.invalid
        = (MsgAction.reject, st))
    ∧ (data.lookup "file_path" = none →
        QueueManager.process_document_message docText hasMcp st (Body.fields data)
          = (MsgAction.reject, st)) := by
  refine ⟨rfl, ?_, rfl, ?_⟩
  · intro h
    simp [process_queue.process_message, h]
  · intro h
    cases hasMcp <;>
      cases hfn : data.lookup "file_name" <;>
        simp [QueueManager.process_document_message, h, hfn]

/-- Witness for C2 (amended) at a concrete body lacking both required
fields: the `process_queue` handler acks it, the startup document handler
rejects it. -/
theorem malformed_message_handling_witness :
    ([("foo", "bar")] : List (String × String)).lookup "filename" = none
    ∧ process_queue.process_message (fun _ _ s => (Except.ok (), s)) pipeSt0
        (Body.fields [("foo", "bar")]) = (MsgAction.ack, pipeSt0)
    ∧ QueueManager.process_document_message (fun c => Except.ok c) true pipeSt0
        (Body.fields [("foo", "bar")]) = (MsgAction.reject, pipeSt0) :=
  ⟨rfl,
   (malformed_message_handling (fun _ _ s => (Except.ok (), s)) (fun c => Except.ok c) true
      pipeSt0 [("foo", "bar")]).2.1 rfl,
   (malformed_message_handling (fun _ _ s => (Except.ok (), s)) (fun c => Except.ok c) true
      pipeSt0 [("foo", "bar")]).2.2.2 rfl⟩

/-- C3 counterexample: a well-formed audio task whose `file_path` is not on
disk, handled by `process_audio_message` — the handler registered for
`audio_processing` at startup — is rejected (so it lands in
`audio_processing_failed`), not acknowledged; the state, and with it the
content store, is unchanged. -/
theorem process_audio_message_missing_file :
    QueueManager.process_audio_message (fun c => c) true pipeSt0 audioBody0
      = (MsgAction.reject, pipeSt0)
    ∧ (QueueManager.process_audio_message (fun c => c) true pipeSt0 audioBody0).1.deadLettered
      = true :=
  ⟨rfl, rfl⟩

/-- C3 (amended): for a task whose referenced file does not exist, the
handler installed by `process_queue` acks the message and leaves the state
— in particular the content store — untouched, producing no dead-letter
entry; the `process_audio_message` handler registered at startup instead
rejects the message without requeue (the extraction failure propagates),
routing it to the dead-letter queue, while still inserting no row. -/
theorem missing_file_handling
    (callback : String → List (String × String) → PipeState → Except String Unit × PipeState)
    (whisperText : String → String) (hasMcp : Bool)
    (st : PipeState) (data : List (String × String)) (fn fp : String) :
    (data.lookup "filename" = some fn →
      st.fileExists (pathJoin UPLOAD_FOLDER fn) = false →
      process_queue.process_message callback st (Body.fields data) = (MsgAction.ack, st))
    ∧ (st.files.lookup fp = none →
      QueueManager.process_audio_message whisperText hasMcp st
          (Body.fields [("file_name", fn), ("file_path", fp)])
        = (MsgAction.reject, st)) := by
  constructor
  · intro hfn hex
    simp [process_queue.process_message, hfn, hex]
  · intro hfp
    have hbody : ([("file_name", fn), ("file_path", fp)] :
        List (String × String)).lookup "file_name" = some fn := rfl
    have hpath : ([("file_name", fn), ("file_path", fp)] :
        List (String × String)).lookup "file_path" = some fp := rfl
    have hmove : moveOnError st fp fn = st := by
      simp [moveOnError, PipeState.fileExists, hfp]
    cases hasMcp <;>
      simp [QueueManager.process_audio_message, hbody, hpath,
        DocumentMCPServer.process_audio, hfp, hmove]

/-- Witness for C3 (amended) on the empty filesystem: the `process_queue`
handler acks the task for the absent `x.mp3`, and the startup audio handler
rejects the same task. -/
theorem missing_file_handling_witness :
    ([("filename", "x.mp3")] : List (String × String)).lookup "filename" = some "x.mp3"
    ∧ pipeSt0.fileExists (pathJoin UPLOAD_FOLDER "x.mp3") = false
    ∧ process_queue.process_message (fun _ _ s => (Except.ok (), s)) pipeSt0
        (Body.fields [("filename", "x.mp3")]) = (MsgAction.ack, pipeSt0)
    ∧ pipeSt0.files.lookup "/stage/x.mp3" = none
    ∧ QueueManager.process_audio_message (fun c => c) true pipeSt0
        (Body.fields [("file_name", "x.mp3"), ("file_path", "/stage/x.mp3")])
      = (MsgAction.reject, pipeSt0) :=
  ⟨rfl, rfl,
   (missing_file_handling (fun _ _ s => (Except.ok (), s)) (fun c => c) true pipeSt0
      [("filename", "x.mp3")] "x.mp3" "/stage/x.mp3").1 rfl rfl,
   rfl,
   (missing_file_handling (fun _ _ s => (Except.ok (), s)) (fun c => c) true pipeSt0
      [("filename", "x.mp3")] "x.mp3" "/stage/x.mp3").2 rfl⟩

/-- C4 counterexample: processing the staged document `a.pdf` with a
succeeding extraction persists a row whose `file_type` column is `"pdf"`
(the extension without the dot, mcp_server.py line 133) — there is no row
with `file_type = "document"`; `"document"` is stored in the
`content_type` column instead. -/
theorem process_document_row_has_extension_file_type :
    countKey (DocumentMCPServer.process_document (fun c => Except.ok c) pdfState0
        "/stage/a.pdf" "a.pdf").2.db "a.pdf" "document" = 0
    ∧ countKey (DocumentMCPServer.process_document (fun c => Except.ok c) pdfState0
        "/stage/a.pdf" "a.pdf").2.db "a.pdf" "pdf" = 1
    ∧ (DocumentMCPServer.process_document (fun c => Except.ok c) pdfState0
        "/stage/a.pdf" "a.pdf").2.db.map Row.content_type = ["document"] := by
  refine ⟨?_, ?_, ?_⟩ <;> rfl

/-- C4 (amended): when a document task for `a.pdf` is processed and
extraction succeeds (on a store with no prior `("a.pdf", "pdf")` row),
exactly one row is persisted, with `file_name = "a.pdf"`,
`file_type = "pdf"` and `content_type = "document"`; the file ends up in
`processed/`, absent from the staging location, and is not placed in
`unprocessed/`. -/
theorem process_document_success (docText : String → Except String String)
    (st : PipeState) (content text : String)
    (hfile : st.files.lookup "/stage/a.pdf" = some content)
    (hex : docText content = Except.ok text)
    (hne : isBlank text = false)
    (hnodup : countKey st.db "a.pdf" "pdf" = 0)
    (hnunp : "a.pdf" ∉ st.unprocessedDir) :
    (DocumentMCPServer.process_document docText st "/stage/a.pdf" "a.pdf").1 = Except.ok ()
    ∧ (DocumentMCPServer.process_document docText st "/stage/a.pdf" "a.pdf").2.db
        = st.db ++ [ContentData.toRow
            { type := "document", content := text
              metadata := { file_name := "a.pdf", file_type := "pdf"
                            rest := [("processed", "true"), ("size", toString content.length)] } }]
    ∧ countKey (DocumentMCPServer.process_document docText st "/stage/a.pdf" "a.pdf").2.db
        "a.pdf" "pdf" = 1
    ∧ "a.pdf" ∈ (DocumentMCPServer.process_document docText st "/stage/a.pdf" "a.pdf").2.processedDir
    ∧ (DocumentMCPServer.process_document docText st "/stage/a.pdf" "a.pdf").2.files.lookup
        "/stage/a.pdf" = none
    ∧ "a.pdf" ∉ (DocumentMCPServer.process_document docText st "/stage/a.pdf" "a.pdf").2.unprocessedDir := by
  have hany : st.db.any (rowMatches "a.pdf" "pdf") = false :=
    (countKey_eq_zero st.db "a.pdf" "pdf").mp hnodup
  have hsave : DatabaseManager.save_processed_content st.db
      { type := "document", content := text
        metadata := { file_name := "a.pdf", file_type := "pdf"
                      rest := [("processed", "true"), ("size", toString content.length)] } }
      = st.db ++ [ContentData.toRow
          { type := "document", content := text
            metadata := { file_name := "a.pdf", file_type := "pdf"
                          rest := [("processed", "true"), ("size", toString content.length)] } }] :=
    save_processed_content_of_not_exists _ _ hany
  have hrun : DocumentMCPServer.process_document docText st "/stage/a.pdf" "a.pdf"
      = (Except.ok (),
        { st with
          db := st.db ++ [ContentData.toRow
            { type := "document", content := text
              metadata := { file_name := "a.pdf", file_type := "pdf"
                            rest := [("processed", "true"), ("size", toString content.length)] } }]
          files := removeFile st.files "/stage/a.pdf"
          processedDir := st.processedDir ++ ["a.pdf"] }) := by
    simp only [DocumentMCPServer.process_document, hfile, hex, hne, Bool.false_eq_true,
      if_false, Option.getD_some]
    rw [show (lowerString (pySuffix "a.pdf")).drop 1 = "pdf" from rfl]
    rw [hsave]
  rw [hrun]
  refine ⟨rfl, rfl, ?_, ?_, ?_, ?_⟩
  · have h0 : st.db.countP (rowMatches "a.pdf" "pdf") = 0 := hnodup
    simp [countKey, List.countP_append, List.countP_cons, h0, rowMatches, ContentData.toRow]
  · simp
  · exact lookup_removeFile st.files "/stage/a.pdf"
  · simpa using hnunp

/-- Witness for C4 (amended) on a concrete staged `a.pdf` whose extraction
returns its contents: one `("a.pdf", "pdf")` row, file moved to
`processed/`. -/
theorem process_document_success_witness :
    pdfState0.files.lookup "/stage/a.pdf" = some "PDFTEXT"
    ∧ isBlank "PDFTEXT" = false
    ∧ countKey pdfState0.db "a.pdf" "pdf" = 0
    ∧ countKey (DocumentMCPServer.process_document (fun c => Except.ok c) pdfState0
        "/stage/a.pdf" "a.pdf").2.db "a.pdf" "pdf" = 1
    ∧ "a.pdf" ∈ (DocumentMCPServer.process_document (fun c => Except.ok c) pdfState0
        "/stage/a.pdf" "a.pdf").2.processedDir :=
  ⟨rfl, by decide, rfl,
   (process_document_success (fun c => Except.ok c) pdfState0 "PDFTEXT" "PDFTEXT"
      rfl rfl (by decide) rfl (by simp [pdfState0])).2.2.1,
   (process_document_success (fun c => Except.ok c) pdfState0 "PDFTEXT" "PDFTEXT"
      rfl rfl (by decide) rfl (by simp [pdfState0])).2.2.2.1⟩

end JusBack
